import Mathlib

/-!
Verification development for the `basenestapi` repository: a shallow
embedding, in Lean 4, of the metadata-driven CRUD core (entity synthesizer,
decoration appliers, generic CRUD orchestrator) and of the sample payment
resource (`payment.service.ts`, `payment.controller.ts`), together with
theorems settling the specification claims about them.

Modelling conventions:
- JS numbers that only ever hold monetary amounts in the claims are modelled
  as `Int` (no claim depends on fractional or floating-point behaviour);
  documentation example values keep their fractional part as `Rat`.
- `Date` values are modelled as `Nat` timestamps supplied by the caller.
- Nondeterministic inputs of the source (`Date.now()`, `Math.random()`-based
  transaction ids and the simulated processing outcome) are explicit oracle
  parameters of the corresponding Lean functions.
- Thrown `NotFoundException` / `BadRequestException` are modelled with
  `Except`; every mutating service method returns its result *paired with
  the resulting store state*, so "the store is not modified on failure" is a
  provable statement, not a modelling artifact.  In the source every `throw`
  in these methods occurs before the first mutation of `this.payments` /
  `this.idCounter`, which is why the error branches return the input state.
-/

namespace BaseNest

/-- JS runtime values, restricted to what the embedded code manipulates. -/
inductive Value where
  | vStr (s : String)
  | vNum (q : Rat)
  | vBool (b : Bool)
  | vNull
  deriving DecidableEq, Repr

/-! ## JS objects as ordered field records

A JS object is modelled as its ordered list of own enumerable
(key, value) properties.  `setField` is a single property write
(overwrite in place, or append a new key at the end), and `objAssign`
is `Object.assign(target, src)`: copy every own enumerable key of
`src` onto `target` in order, last writer wins. -/

abbrev Obj := List (String × Value)

/-- Write one property: overwrite an existing key in place, otherwise
append the key at the end (JS property-creation order). -/
def setField : Obj → String → Value → Obj
  | [], k, v => [(k, v)]
  | (k', v') :: rest, k, v =>
      if k' = k then (k', v) :: rest else (k', v') :: setField rest k v

/-- Read one property (`o[k]`); `none` is JS `undefined` (key absent). -/
def getField : Obj → String → Option Value
  | [], _ => none
  | (k', v') :: rest, k => if k' = k then some v' else getField rest k

/-- `Object.assign(target, src)`: copy the own enumerable properties of
`src` onto `target`, in order. -/
def objAssign (target src : Obj) : Obj :=
  src.foldl (fun t kv => setField t kv.1 kv.2) target

/-- Key list of an object; a real JS object has pairwise-distinct keys. -/
def objKeys (o : Obj) : List String := o.map (·.1)

/-- Reading an object's own field record back (`{...instance}` /
`toPlainObject`) yields exactly its own enumerable properties, which is
what the `Obj` value already is. -/
def toPlainObject (inst : Obj) : Obj := inst

/-! ## Payment domain (src: payment.entity.ts, dto files, enums) -/

/-- The `PaymentStatus` string enum of `payment.entity.ts`. -/
inductive PaymentStatus where
  | pending
  | completed
  | failed
  | refunded
  deriving DecidableEq, Repr

/-- String value of a `PaymentStatus` member, as in the TS enum. -/
def statusStr : PaymentStatus → String
  | .pending => "pending"
  | .completed => "completed"
  | .failed => "failed"
  | .refunded => "refunded"

/-- The `Payment` entity class (field-for-field). -/
structure Payment where
  id : Nat
  amount : Int
  currency : String
  status : PaymentStatus
  customerEmail : String
  customerName : String
  description : Option String
  transactionId : Option String
  createdAt : Nat
  updatedAt : Nat
  deriving DecidableEq, Repr

/-- The `CreatePaymentDto` input shape (create-payment.dto.ts). -/
structure CreatePaymentDto where
  amount : Int
  currency : String
  customerEmail : String
  customerName : String
  description : Option String
  deriving DecidableEq, Repr

/-- The `UpdatePaymentDto` input shape (update-payment.dto.ts); `none`
models a key absent from the parsed request body. -/
structure UpdatePaymentDto where
  amount : Option Int := none
  currency : Option String := none
  status : Option PaymentStatus := none
  customerEmail : Option String := none
  customerName : Option String := none
  description : Option String := none
  deriving DecidableEq, Repr

/-- Exceptions thrown by the service: `NotFoundException` surfaces as the
spec's NotFound failure, `BadRequestException` as its
BusinessRuleViolation. -/
inductive ApiError where
  | notFoundError (msg : String)
  | badRequestError (msg : String)
  deriving DecidableEq, Repr

/-- The `PaymentService` in-memory store: `payments` array plus
`idCounter` (payment.service.ts lines 16-17). -/
structure ServiceState where
  payments : List Payment
  idCounter : Nat
  deriving DecidableEq, Repr

/-- The store a freshly constructed `PaymentService` holds. -/
def initialState : ServiceState := { payments := [], idCounter := 1 }

/-- `findOne`: first payment whose `id` matches, else `NotFoundException`. -/
def findOne (s : ServiceState) (id : Nat) : Except ApiError Payment :=
  match s.payments.find? (fun p => p.id == id) with
  | some p => .ok p
  | none => .error (.notFoundError ("Payment with ID " ++ toString id ++ " not found"))

/-- `findAll`: the whole payments array. -/
def findAll (s : ServiceState) : List Payment := s.payments

/-- `findByStatus`: filter by status. -/
def findByStatus (s : ServiceState) (st : PaymentStatus) : List Payment :=
  s.payments.filter (fun p => p.status == st)

/-- `findByCustomerEmail`: filter by customer email. -/
def findByCustomerEmail (s : ServiceState) (email : String) : List Payment :=
  s.payments.filter (fun p => p.customerEmail == email)

/-- The `validCurrencies` list of `validatePayment`. -/
def validCurrencies : List String := ["USD", "EUR", "GBP"]

/-- `String.prototype.toUpperCase` on the ASCII currency codes involved:
upper-case every character (written on the character list so that it
evaluates by kernel reduction). -/
def toUpperStr (s : String) : String := String.mk (s.data.map Char.toUpper)

/-- `validatePayment` (payment.service.ts lines 173-184): reject a
non-positive amount, then a currency whose upper-casing is not in
`validCurrencies`. -/
def validatePayment (dto : CreatePaymentDto) : Except ApiError Unit :=
  if dto.amount ≤ 0 then
    .error (.badRequestError "Payment amount must be positive")
  else if !(validCurrencies.contains (toUpperStr dto.currency)) then
    .error (.badRequestError "Invalid currency. Supported: USD, EUR, GBP")
  else
    .ok ()

/-- `create` (payment.service.ts lines 22-43).  `txnId` stands for the
`generateTransactionId()` result and `now` for `new Date()`; validation
runs before `idCounter` is bumped and before the push, so the error
branch returns the untouched store. -/
def createdPayment (s : ServiceState) (dto : CreatePaymentDto) (txnId : String)
    (now : Nat) : Payment :=
  { id := s.idCounter
    amount := dto.amount
    currency := dto.currency
    status := .pending
    customerEmail := dto.customerEmail
    customerName := dto.customerName
    description := dto.description
    transactionId := some txnId
    createdAt := now
    updatedAt := now }

def create (s : ServiceState) (dto : CreatePaymentDto) (txnId : String) (now : Nat) :
    Except ApiError Payment × ServiceState :=
  match validatePayment dto with
  | .error e => (.error e, s)
  | .ok () =>
    (.ok (createdPayment s dto txnId now),
      { payments := s.payments ++ [createdPayment s dto txnId now]
        idCounter := s.idCounter + 1 })

/-- The `validTransitions` table of `validateStatusTransition`
(payment.service.ts lines 186-201). -/
def validTransitions : PaymentStatus → List PaymentStatus
  | .pending => [.completed, .failed]
  | .completed => [.refunded]
  | .failed => []
  | .refunded => []

/-- `validateStatusTransition`: throw unless the target status is in the
current status's allowed list. -/
def validateStatusTransition (currentStatus newStatus : PaymentStatus) :
    Except ApiError Unit :=
  if (validTransitions currentStatus).contains newStatus then .ok ()
  else
    .error (.badRequestError
      ("Invalid status transition from " ++ statusStr currentStatus ++
        " to " ++ statusStr newStatus))

/-- Replace the element at `findIndex(p => p.id === id)` — the first
matching position — as `this.payments[index] = updatedPayment` does. -/
def replaceById : List Payment → Nat → Payment → List Payment
  | [], _, _ => []
  | p :: rest, id, newP =>
      if p.id == id then newP :: rest else p :: replaceById rest id newP

/-- Merge an `UpdatePaymentDto` into a payment exactly as the spreads
`{...payment, ...otherUpdates, ...(status && { status }), updatedAt}` do:
a present DTO key overwrites, an absent key leaves the field alone. -/
def mergeUpdate (payment : Payment) (dto : UpdatePaymentDto) (now : Nat) : Payment :=
  { payment with
    amount := dto.amount.getD payment.amount
    currency := dto.currency.getD payment.currency
    customerEmail := dto.customerEmail.getD payment.customerEmail
    customerName := dto.customerName.getD payment.customerName
    description := match dto.description with
      | some d => some d
      | none => payment.description
    status := dto.status.getD payment.status
    updatedAt := now }

/-- `update` (payment.service.ts lines 82-106): find the payment, validate
the status transition when a status is supplied, then write the merged
payment back at the same index. -/
def update (s : ServiceState) (id : Nat) (dto : UpdatePaymentDto) (now : Nat) :
    Except ApiError Payment × ServiceState :=
  match findOne s id with
  | .error e => (.error e, s)
  | .ok payment =>
    match (match dto.status with
           | some newStatus => validateStatusTransition payment.status newStatus
           | none => .ok ()) with
    | .error e => (.error e, s)
    | .ok () =>
      let updatedPayment := mergeUpdate payment dto now
      (.ok updatedPayment,
        { s with payments := replaceById s.payments id updatedPayment })

/-- Delete the element at `findIndex(p => p.id === id)` (the `splice`). -/
def removeById : List Payment → Nat → List Payment
  | [], _ => []
  | p :: rest, id => if p.id == id then rest else p :: removeById rest id

/-- `remove` (payment.service.ts lines 111-122): completed and refunded
payments cannot be deleted. -/
def remove (s : ServiceState) (id : Nat) : Except ApiError Unit × ServiceState :=
  match findOne s id with
  | .error e => (.error e, s)
  | .ok payment =>
    if payment.status = .completed ∨ payment.status = .refunded then
      (.error (.badRequestError ("Cannot delete " ++ statusStr payment.status ++ " payments")), s)
    else
      (.ok (), { s with payments := removeById s.payments id })

/-- `processPayment` (payment.service.ts lines 126-146); `success` stands
for the `Math.random() > 0.1` draw. -/
def processPayment (s : ServiceState) (id : Nat) (success : Bool) (now : Nat) :
    Except ApiError Payment × ServiceState :=
  match findOne s id with
  | .error e => (.error e, s)
  | .ok payment =>
    if payment.status ≠ .pending then
      (.error (.badRequestError
        ("Payment with ID " ++ toString id ++ " is not in pending status")), s)
    else
      let updatedPayment :=
        { payment with
          status := if success then .completed else .failed
          updatedAt := now }
      (.ok updatedPayment,
        { s with payments := replaceById s.payments id updatedPayment })

/-- `refundPayment` (payment.service.ts lines 151-168). -/
def refundPayment (s : ServiceState) (id : Nat) (now : Nat) :
    Except ApiError Payment × ServiceState :=
  match findOne s id with
  | .error e => (.error e, s)
  | .ok payment =>
    if payment.status ≠ .completed then
      (.error (.badRequestError "Can only refund completed payments"), s)
    else
      let updatedPayment :=
        { payment with status := .refunded, updatedAt := now }
      (.ok updatedPayment,
        { s with payments := replaceById s.payments id updatedPayment })

/-! ## Response DTO shapes and the generic CRUD orchestrator
(src: base-dto.ts, base-controller.ts, payment.controller.ts,
payment-response.dto.ts, payment-created-response.dto.ts) -/

/-- `PaymentResponseDto`: its own declared fields plus the
`BaseResponseDto` fields (`id`, `createdAt`, `updatedAt`). -/
structure PaymentResponseDto where
  id : Nat
  createdAt : Nat
  updatedAt : Nat
  amount : Int
  currency : String
  status : PaymentStatus
  customerEmail : String
  customerName : String
  description : Option String
  transactionId : Option String
  deriving DecidableEq, Repr

/-- `PaymentCreatedResponseDto`: the narrower create response — no
customer fields, no description. -/
structure PaymentCreatedResponseDto where
  id : Nat
  createdAt : Nat
  updatedAt : Nat
  amount : Int
  currency : String
  status : PaymentStatus
  transactionId : Option String
  deriving DecidableEq, Repr

/-- `new PaymentResponseDto(payment)`: the @AutoResponse-synthesized
constructor shallow-copies every entity field onto the instance; on the
declared field set this is a field-for-field copy. -/
def mkPaymentResponseDto (p : Payment) : PaymentResponseDto :=
  { id := p.id
    createdAt := p.createdAt
    updatedAt := p.updatedAt
    amount := p.amount
    currency := p.currency
    status := p.status
    customerEmail := p.customerEmail
    customerName := p.customerName
    description := p.description
    transactionId := p.transactionId }

/-- `new PaymentCreatedResponseDto(payment)` for the declared field set. -/
def mkPaymentCreatedResponseDto (p : Payment) : PaymentCreatedResponseDto :=
  { id := p.id
    createdAt := p.createdAt
    updatedAt := p.updatedAt
    amount := p.amount
    currency := p.currency
    status := p.status
    transactionId := p.transactionId }

/-- `BaseListResponseDto<T>` of base-dto.ts. -/
structure BaseListResponseDto (T : Type) where
  items : List T
  total : Nat
  deriving DecidableEq, Repr

/-- The `BaseListResponseDto` constructor: `total` defaults to
`items.length` when the second argument is `undefined`. -/
def mkBaseListResponseDto {T : Type} (items : List T) (total? : Option Nat) :
    BaseListResponseDto T :=
  { items := items, total := total?.getD items.length }

/-- Declared field names of `PaymentResponseDto` (base fields first, as
inherited from `BaseResponseDto`), transcribing the class declaration. -/
def paymentResponseDtoFields : List String :=
  ["id", "createdAt", "updatedAt", "amount", "currency", "status",
    "customerEmail", "customerName", "description", "transactionId"]

/-- Declared field names of `PaymentCreatedResponseDto`. -/
def paymentCreatedResponseDtoFields : List String :=
  ["id", "createdAt", "updatedAt", "amount", "currency", "status",
    "transactionId"]

/-- Field set of the class `BaseController.createEntity` wraps its result
in: `getCreatedResponseClass()`, bound by `PaymentController` to
`PaymentCreatedResponseDto`. -/
def createEntityResponseFields : List String := paymentCreatedResponseDtoFields

/-- Field set of the class `findOneEntity` / `updateEntity` wrap their
results in: `getResponseClass()`, bound to `PaymentResponseDto`. -/
def findOneEntityResponseFields : List String := paymentResponseDtoFields

/-- `BaseController.createEntity` (base-controller.ts lines 29-33) at the
payment instantiation: delegate to `service.create`, wrap the entity in
`getCreatedResponseClass()` = `PaymentCreatedResponseDto`. -/
def createEntity (s : ServiceState) (dto : CreatePaymentDto) (txnId : String) (now : Nat) :
    Except ApiError PaymentCreatedResponseDto × ServiceState :=
  match create s dto txnId now with
  | (.ok entity, s') => (.ok (mkPaymentCreatedResponseDto entity), s')
  | (.error e, s') => (.error e, s')

/-- `BaseController.findAllEntities` (base-controller.ts lines 38-45):
map each entity through the response constructor, then wrap the list and
`entities.length` in the list-response constructor. -/
def findAllEntities (s : ServiceState) : BaseListResponseDto PaymentResponseDto :=
  mkBaseListResponseDto ((findAll s).map mkPaymentResponseDto) (some (findAll s).length)

/-- `BaseController.findOneEntity`: delegate to `service.findOne`, wrap in
`getResponseClass()` = `PaymentResponseDto`. -/
def findOneEntity (s : ServiceState) (id : Nat) : Except ApiError PaymentResponseDto :=
  (findOne s id).map mkPaymentResponseDto

/-- `BaseController.updateEntity` (base-controller.ts lines 59-63):
delegate to `service.update`, wrap in `getResponseClass()`. -/
def updateEntity (s : ServiceState) (id : Nat) (dto : UpdatePaymentDto) (now : Nat) :
    Except ApiError PaymentResponseDto × ServiceState :=
  match update s id dto now with
  | (.ok entity, s') => (.ok (mkPaymentResponseDto entity), s')
  | (.error e, s') => (.error e, s')

/-- `PaymentController.findAll` (payment.controller.ts lines 59-75): pick
the source list by the optional `status` / `email` filters, then build
`new PaymentListResponseDto(responseItems, payments.length)`. -/
def controllerFindAll (s : ServiceState) (status? : Option PaymentStatus)
    (email? : Option String) : BaseListResponseDto PaymentResponseDto :=
  let payments :=
    match status? with
    | some st => findByStatus s st
    | none =>
      match email? with
      | some e => findByCustomerEmail s e
      | none => findAll s
  mkBaseListResponseDto (payments.map mkPaymentResponseDto) (some payments.length)

/-! ## Operation alphabet and reachable store states -/

/-- One mutating call against the `PaymentService`, oracle inputs
included. -/
inductive Op where
  | opCreate (dto : CreatePaymentDto) (txnId : String) (now : Nat)
  | opUpdate (id : Nat) (dto : UpdatePaymentDto) (now : Nat)
  | opRemove (id : Nat)
  | opProcess (id : Nat) (success : Bool) (now : Nat)
  | opRefund (id : Nat) (now : Nat)
  deriving Repr

/-- The store state an operation leaves behind (a thrown exception leaves
the state of the failing call). -/
def applyOp (s : ServiceState) : Op → ServiceState
  | .opCreate dto txnId now => (create s dto txnId now).2
  | .opUpdate id dto now => (update s id dto now).2
  | .opRemove id => (remove s id).2
  | .opProcess id success now => (processPayment s id success now).2
  | .opRefund id now => (refundPayment s id now).2

/-- Run an operation sequence from the fresh service. -/
def run (ops : List Op) : ServiceState := ops.foldl applyOp initialState

/-- The ids currently stored, in array order. -/
def ids (s : ServiceState) : List Nat := s.payments.map (·.id)

/-- The store invariant: stored ids are pairwise distinct and below the
id counter. -/
abbrev Inv (s : ServiceState) : Prop :=
  (ids s).Nodup ∧ ∀ p ∈ s.payments, p.id < s.idCounter

/-! ## Decorators: class enhancement and metadata application
(src: crud-controller.decorator.ts / auto-response.decorator.ts,
auto-entity.decorator.ts, auto-apply.decorator.ts, field.decorator.ts) -/

/-- A response-mapping entry (`ResponseFieldConfig`). -/
structure ResponseFieldConfig where
  description : String
  exampleVal : Value
  required : Bool
  deriving DecidableEq, Repr

/-- A runtime class value as the decorators observe it: its `name`
property, the documentation metadata attached to its prototype, and its
construction behaviour on an optional partial object. -/
structure JsClass where
  name : String
  protoMeta : List (String × ResponseFieldConfig)
  construct : Obj → Obj

/-- `AutoResponse(mapping)` applied to a class: attach an `ApiProperty`
per mapping entry to the prototype, then return the anonymous
`class extends constructor` whose constructor calls
`super(...args)` and `Object.assign`s the first argument.  Per the
ECMAScript class-definition semantics, an anonymous class expression's
own `name` property is the empty string — nothing in the source resets
it to the original name. -/
def autoResponse (mapping : List (String × ResponseFieldConfig)) (c : JsClass) : JsClass :=
  { name := ""
    protoMeta := c.protoMeta ++ mapping
    construct := fun arg => objAssign (c.construct arg) arg }

/-- `AutoEntity()` applied to a class (auto-entity.decorator.ts lines
28-47): the enhanced constructor calls `super()` with no arguments and
then `Object.assign`s the first argument, and afterwards
`Object.defineProperty(enhancedClass, 'name', { value: constructor.name })`
restores the original class name. -/
def autoEntity (c : JsClass) : JsClass :=
  { name := c.name
    protoMeta := c.protoMeta
    construct := fun arg => objAssign (c.construct []) arg }

/-- The undecorated `PaymentResponseDto` class as declared: plain field
declarations create no own properties, and the inherited
`BaseResponseDto` constructor `Object.assign`s its argument. -/
def paymentResponseDtoClass : JsClass :=
  { name := "PaymentResponseDto"
    protoMeta := []
    construct := fun arg => objAssign [] arg }

/-- `PaymentResponseMapping` (responses/mapping.ts), description/example/
required parts. -/
def paymentResponseMapping : List (String × ResponseFieldConfig) :=
  [("amount", { description := "Payment amount", exampleVal := .vNum (9999 / 100), required := true }),
   ("currency", { description := "Payment currency", exampleVal := .vStr "USD", required := true }),
   ("status", { description := "Payment status", exampleVal := .vStr "completed", required := true }),
   ("customerEmail", { description := "Customer email", exampleVal := .vStr "customer@example.com", required := true }),
   ("customerName", { description := "Customer name", exampleVal := .vStr "John Doe", required := true }),
   ("description", { description := "Payment description", exampleVal := .vStr "Payment for order #1234", required := false }),
   ("transactionId", { description := "Transaction ID", exampleVal := .vStr "txn_1234567890", required := false })]

/-- The entity-synthesizer construction (`@AutoEntity` on `Payment`,
whose base class has no constructor): `construct(arg)` shallow-copies
`arg` onto a fresh instance with no own properties. -/
def entityConstruct (arg : Obj) : Obj := objAssign [] arg

/-- The response-shape construction (`@AutoResponse` on a class extending
`BaseResponseDto`): the base constructor assigns the argument, and the
synthesized wrapper assigns it again. -/
def responseConstruct (arg : Obj) : Obj := objAssign (objAssign [] arg) arg

/-! ## Input-decoration applier (auto-apply.decorator.ts / field.decorator.ts) -/

/-- One decorator produced by the field-decorator factories. -/
inductive FieldAttr where
  | apiProperty (description : String) (exampleVal : Value) (required : Bool)
  | isString
  | isNumber
  | isEmail
  | isOptional
  | isNotEmpty
  | minLength (n : Nat)
  | maxLength (n : Nat)
  | minVal (q : Rat)
  deriving DecidableEq, Repr

/-- `StringField` (field.decorator.ts): ApiProperty + IsString, then
IsNotEmpty/IsOptional by requiredness, then the optional length bounds. -/
def stringField (description : String) (exampleVal : String) (required : Bool)
    (minL maxL : Option Nat) : List FieldAttr :=
  [.apiProperty description (.vStr exampleVal) required, .isString]
    ++ (if required then [.isNotEmpty] else [.isOptional])
    ++ (match minL with | some n => [.minLength n] | none => [])
    ++ (match maxL with | some n => [.maxLength n] | none => [])

/-- `EmailField`. -/
def emailField (description : String) (exampleVal : String) (required : Bool) :
    List FieldAttr :=
  [.apiProperty description (.vStr exampleVal) required, .isEmail]
    ++ (if required then [.isNotEmpty] else [.isOptional])

/-- `NumberField` (only a lower bound is used by the payment mappings). -/
def numberField (description : String) (exampleVal : Rat) (required : Bool)
    (minB : Option Rat) : List FieldAttr :=
  [.apiProperty description (.vNum exampleVal) required, .isNumber]
    ++ (if required then [.isNotEmpty] else [.isOptional])
    ++ (match minB with | some q => [.minVal q] | none => [])

/-- An entry of a field-mapping table as JS sees it: either a genuine
zero-argument decorator factory (represented by the decorator bundle the
pure factory returns) or some non-callable value — the malformed case. -/
inductive MappingEntry where
  | ruleFactory (attrs : List FieldAttr)
  | notCallable (v : Value)
  deriving DecidableEq, Repr

/-- A DTO class as the input applier observes it: name plus the
validation/documentation metadata attached so far. -/
structure DtoClass where
  name : String
  fieldMeta : List (String × List FieldAttr)
  deriving DecidableEq, Repr

/-- Outcome of running a decorator at class-definition time: normal
completion with collected `console.warn` diagnostics, or an escaped
exception. -/
inductive JsOutcome (α : Type) where
  | ok (warnings : List String) (a : α)
  | thrown (err : String)
  deriving DecidableEq, Repr

/-- The `for (const [propertyKey, decoratorFactory] of Object.entries(...))`
loop: invoking a non-callable entry raises a `TypeError` that escapes the
decorator. -/
def applyEntries : List (String × MappingEntry) → DtoClass → JsOutcome DtoClass
  | [], t => .ok [] t
  | (k, .ruleFactory attrs) :: rest, t =>
      applyEntries rest { t with fieldMeta := t.fieldMeta ++ [(k, attrs)] }
  | (_, .notCallable _) :: _, _ =>
      .thrown "TypeError: decoratorFactory is not a function"

/-- `AutoApplyDecorators(fieldMappings)` (auto-apply variant taking the
mapping object, part_004 lines 139-153; the string-keyed variant behaves
identically once `FIELD_MAPPINGS[dtoName]` is resolved): a falsy table
warns and returns the target untouched; otherwise every entry is invoked
and applied. -/
def autoApplyDecorators (table? : Option (List (String × MappingEntry)))
    (target : DtoClass) : JsOutcome DtoClass :=
  match table? with
  | none => .ok ["No field mappings provided to @AutoApplyDecorators"] target
  | some entries => applyEntries entries target

/-- `CreatePaymentMapping` (dto/mapping.ts). -/
def createPaymentMapping : List (String × MappingEntry) :=
  [("amount", .ruleFactory (numberField "Payment amount" (9999 / 100) true (some (1 / 100)))),
   ("currency", .ruleFactory (stringField "Payment currency" "USD" true (some 3) (some 3))),
   ("customerEmail", .ruleFactory (emailField "Customer email address" "customer@example.com" true)),
   ("customerName", .ruleFactory (stringField "Customer full name" "John Doe" true none none)),
   ("description", .ruleFactory (stringField "Payment description" "Payment for order #1234" false none none))]

/-- The bare `CreatePaymentDto` class before decoration. -/
def createPaymentDtoBare : DtoClass := { name := "CreatePaymentDto", fieldMeta := [] }

/-! ## Claim-level definitions and concrete fixtures -/

/-- An update request body carrying only a target status
(`{status: s}`). -/
def statusOnlyDto (target : PaymentStatus) : UpdatePaymentDto :=
  { status := some target }

/-- The transition pairs the claim designates as legal:
pending→completed, pending→failed, completed→refunded. -/
abbrev legalPair (c t : PaymentStatus) : Prop :=
  (c = .pending ∧ t = .completed) ∨ (c = .pending ∧ t = .failed) ∨
  (c = .completed ∧ t = .refunded)

/-- A payment with just its status (and `updatedAt`) rewritten. -/
def statusUpdated (p : Payment) (target : PaymentStatus) (now : Nat) : Payment :=
  { p with status := target, updatedAt := now }

/-- Entry wellformedness for a field-mapping table: the entry is an
actual function (callable decorator factory). -/
def isFactoryEntry : MappingEntry → Bool
  | .ruleFactory _ => true
  | .notCallable _ => false

/-- Did the class-definition-time decorator run complete normally? -/
def completesNormally {α : Type} : JsOutcome α → Bool
  | .ok _ _ => true
  | .thrown _ => false

/-- A concrete valid create request. -/
def dtoEx : CreatePaymentDto :=
  { amount := 10, currency := "USD", customerEmail := "a@b.com",
    customerName := "A B", description := none }

/-- The same request with a negative amount. -/
def dtoNeg : CreatePaymentDto :=
  { amount := -5, currency := "USD", customerEmail := "a@b.com",
    customerName := "A B", description := none }

/-- The same request with a lower-case currency code. -/
def dtoLower : CreatePaymentDto :=
  { amount := 10, currency := "usd", customerEmail := "a@b.com",
    customerName := "A B", description := none }

/-- The payment `create initialState dtoEx "txn" 0` stores. -/
def paymentEx : Payment :=
  { id := 1, amount := 10, currency := "USD", status := .pending,
    customerEmail := "a@b.com", customerName := "A B", description := none,
    transactionId := some "txn", createdAt := 0, updatedAt := 0 }

/-- The store holding exactly `paymentEx`. -/
def stateEx : ServiceState := { payments := [paymentEx], idCounter := 2 }

/-- A call history whose final store holds one `failed` payment: a
create followed by a processing attempt whose draw failed. -/
def opsFailedHistory : List Op :=
  [.opCreate dtoEx "txn" 0, .opProcess 1 false 1]

/-- The subsequent call that tries to move the failed payment to
`completed`. -/
def opRetryCompleted : Op := .opUpdate 1 (statusOnlyDto .completed) 2

/-- The failed payment `opsFailedHistory` leaves in the store. -/
def pFailedEx : Payment :=
  { id := 1, amount := 10, currency := "USD", status := .failed,
    customerEmail := "a@b.com", customerName := "A B", description := none,
    transactionId := some "txn", createdAt := 0, updatedAt := 1 }

/-! ## Lemmas about the JS object model -/

/-- The value the assignment loop leaves at key `k`: the value of the
*last* occurrence of `k` in `src`, if any. -/
def lastVal : Obj → String → Option Value
  | [], _ => none
  | (k', v') :: rest, k =>
      match lastVal rest k with
      | some v => some v
      | none => if k' = k then some v' else none

theorem objKeys_nil : objKeys [] = [] := rfl

theorem objKeys_cons (k1 : String) (v1 : Value) (rest : Obj) :
    objKeys ((k1, v1) :: rest) = k1 :: objKeys rest := rfl

theorem mem_objKeys_cons {k k1 : String} {v1 : Value} {rest : Obj} :
    k ∈ objKeys ((k1, v1) :: rest) ↔ k = k1 ∨ k ∈ objKeys rest := by
  rw [objKeys_cons, List.mem_cons]

theorem objAssign_nil (t : Obj) : objAssign t [] = t := rfl

theorem objAssign_cons (t : Obj) (k : String) (v : Value) (rest : Obj) :
    objAssign t ((k, v) :: rest) = objAssign (setField t k v) rest := rfl

theorem getField_setField_self (t : Obj) (k : String) (v : Value) :
    getField (setField t k v) k = some v := by
  induction t with
  | nil => simp [setField, getField]
  | cons kv rest ih =>
    obtain ⟨k', v'⟩ := kv
    by_cases h : k' = k
    · simp [setField, getField, h]
    · simp [setField, getField, h, ih]

theorem getField_setField_ne (t : Obj) {k k' : String} (h : k' ≠ k) (v : Value) :
    getField (setField t k v) k' = getField t k' := by
  induction t with
  | nil =>
    rw [setField]
    show (if k = k' then some v else getField [] k') = getField [] k'
    rw [if_neg (fun he => h he.symm)]
  | cons kv rest ih =>
    obtain ⟨k1, v1⟩ := kv
    by_cases h1 : k1 = k
    · subst h1
      rw [setField, if_pos rfl, getField, getField,
        if_neg (fun he => h he.symm), if_neg (fun he => h he.symm)]
    · rw [setField, if_neg h1]
      by_cases h2 : k1 = k'
      · rw [getField, getField, if_pos h2, if_pos h2]
      · rw [getField, getField, if_neg h2, if_neg h2, ih]

theorem getField_objAssign (src : Obj) (t : Obj) (k : String) :
    getField (objAssign t src) k =
      match lastVal src k with
      | some v => some v
      | none => getField t k := by
  induction src generalizing t with
  | nil => rfl
  | cons kv rest ih =>
    obtain ⟨k1, v1⟩ := kv
    rw [objAssign_cons, ih]
    cases hl : lastVal rest k with
    | some v => simp [lastVal, hl]
    | none =>
      by_cases h1 : k1 = k
      · subst h1
        simp [lastVal, hl, getField_setField_self]
      · simp only [lastVal, hl, if_neg h1]
        rw [getField_setField_ne t (fun he => h1 he.symm) v1]

theorem objKeys_setField_mem {t : Obj} {k : String} (h : k ∈ objKeys t) (v : Value) :
    objKeys (setField t k v) = objKeys t := by
  induction t with
  | nil => simp [objKeys_nil] at h
  | cons kv rest ih =>
    obtain ⟨k1, v1⟩ := kv
    by_cases h1 : k1 = k
    · rw [setField, if_pos h1, objKeys_cons, objKeys_cons]
    · have hm : k ∈ objKeys rest := by
        rcases mem_objKeys_cons.mp h with he | hm
        · exact absurd he.symm h1
        · exact hm
      rw [setField, if_neg h1, objKeys_cons, objKeys_cons, ih hm]

theorem objKeys_setField_not_mem {t : Obj} {k : String} (h : k ∉ objKeys t) (v : Value) :
    objKeys (setField t k v) = objKeys t ++ [k] := by
  induction t with
  | nil => rfl
  | cons kv rest ih =>
    obtain ⟨k1, v1⟩ := kv
    have h1 : k1 ≠ k := fun he => h (mem_objKeys_cons.mpr (Or.inl he.symm))
    have hm : k ∉ objKeys rest := fun hm => h (mem_objKeys_cons.mpr (Or.inr hm))
    rw [setField, if_neg h1, objKeys_cons, objKeys_cons, ih hm, List.cons_append]

theorem nodup_objKeys_setField {t : Obj} (h : (objKeys t).Nodup) (k : String) (v : Value) :
    (objKeys (setField t k v)).Nodup := by
  by_cases hm : k ∈ objKeys t
  · rw [objKeys_setField_mem hm]; exact h
  · rw [objKeys_setField_not_mem hm]
    rw [List.nodup_append]
    refine ⟨h, List.nodup_singleton k, ?_⟩
    intro a ha hb
    rw [List.mem_singleton] at hb
    exact hm (hb ▸ ha)

theorem nodup_objKeys_objAssign (src : Obj) {t : Obj} (h : (objKeys t).Nodup) :
    (objKeys (objAssign t src)).Nodup := by
  induction src generalizing t with
  | nil => exact h
  | cons kv rest ih =>
    obtain ⟨k1, v1⟩ := kv
    rw [objAssign_cons]
    exact ih (nodup_objKeys_setField h k1 v1)

theorem lastVal_of_not_mem {y : Obj} {k : String} (h : k ∉ objKeys y) :
    lastVal y k = none := by
  induction y with
  | nil => rfl
  | cons kv rest ih =>
    obtain ⟨k1, v1⟩ := kv
    have h1 : k1 ≠ k := fun he => h (mem_objKeys_cons.mpr (Or.inl he.symm))
    have hm : k ∉ objKeys rest := fun hm => h (mem_objKeys_cons.mpr (Or.inr hm))
    rw [lastVal, ih hm, if_neg h1]

theorem lastVal_eq_getField_of_nodup {y : Obj} (h : (objKeys y).Nodup) (k : String) :
    lastVal y k = getField y k := by
  induction y with
  | nil => rfl
  | cons kv rest ih =>
    obtain ⟨k1, v1⟩ := kv
    rw [objKeys_cons, List.nodup_cons] at h
    by_cases h1 : k1 = k
    · subst h1
      rw [lastVal, lastVal_of_not_mem h.1]
      simp [getField]
    · rw [lastVal, ih h.2, getField, if_neg h1]
      cases getField rest k with
      | none => simp [if_neg h1]
      | some v => simp [if_neg h1]

/-- Construction by the synthesized shallow copy reads back, at every
key, the last value the partial object supplies for that key. -/
theorem getField_entityConstruct (x : Obj) (k : String) :
    getField (entityConstruct x) k =
      match lastVal x k with
      | some v => some v
      | none => none := by
  rw [entityConstruct, getField_objAssign]
  cases lastVal x k <;> rfl

theorem entityConstruct_keys_nodup (x : Obj) : (objKeys (entityConstruct x)).Nodup :=
  nodup_objKeys_objAssign x (by simp [objKeys])

theorem responseConstruct_keys_nodup (x : Obj) :
    (objKeys (responseConstruct x)).Nodup :=
  nodup_objKeys_objAssign x (nodup_objKeys_objAssign x (by simp [objKeys]))

/-- On an instance whose keys are pairwise distinct — every actual JS
object — the shallow-copy construction reproduces the fields exactly. -/
theorem getField_entityConstruct_of_nodup {y : Obj} (hy : (objKeys y).Nodup)
    (k : String) : getField (entityConstruct y) k = getField y k := by
  rw [getField_entityConstruct, lastVal_eq_getField_of_nodup hy]
  cases getField y k <;> rfl

/-- The double assignment performed by a response shape (base
constructor plus synthesized wrapper) reads back field-for-field the
same as the single assignment. -/
theorem getField_responseConstruct (x : Obj) (k : String) :
    getField (responseConstruct x) k = getField (entityConstruct x) k := by
  rw [responseConstruct, getField_objAssign, getField_entityConstruct]
  rw [show objAssign ([] : Obj) x = entityConstruct x from rfl, getField_entityConstruct]
  cases lastVal x k <;> rfl

/-! ## Lemmas about the payment store -/

theorem createdPayment_id (s : ServiceState) (dto : CreatePaymentDto) (txnId : String)
    (now : Nat) : (createdPayment s dto txnId now).id = s.idCounter := rfl

theorem findOne_ok {s : ServiceState} {id : Nat} {p : Payment}
    (h : findOne s id = .ok p) :
    s.payments.find? (fun q => q.id == id) = some p := by
  unfold findOne at h
  cases hf : s.payments.find? (fun q => q.id == id) with
  | some q => rw [hf] at h; cases h; rfl
  | none => rw [hf] at h; cases h

theorem find?_id_eq {l : List Payment} {id : Nat} {p : Payment}
    (h : l.find? (fun q => q.id == id) = some p) : p.id = id := by
  have := List.find?_some h
  simpa using this

theorem find?_id_mem {l : List Payment} {id : Nat} {p : Payment}
    (h : l.find? (fun q => q.id == id) = some p) : p ∈ l :=
  List.mem_of_find?_eq_some h

/-- With pairwise-distinct stored ids, looking up a stored payment's own
id finds exactly that payment. -/
theorem find?_of_mem_nodup {l : List Payment} (hnd : (l.map (·.id)).Nodup)
    {p : Payment} (hp : p ∈ l) : l.find? (fun q => q.id == p.id) = some p := by
  induction l with
  | nil => simp at hp
  | cons q rest ih =>
    rw [List.map_cons, List.nodup_cons] at hnd
    rcases List.mem_cons.mp hp with rfl | hmem
    · simp [List.find?_cons]
    · have hne : ¬ q.id = p.id := fun he =>
        hnd.1 (he ▸ List.mem_map_of_mem (·.id) hmem)
      have hb : (q.id == p.id) = false := by simp [hne]
      simp only [List.find?_cons, hb]
      exact ih hnd.2 hmem

/-- Distinct stored ids make the id a key: two stored payments with the
same id are the same payment. -/
theorem mem_id_inj {l : List Payment} (hnd : (l.map (·.id)).Nodup)
    {p q : Payment} (hp : p ∈ l) (hq : q ∈ l) (hid : q.id = p.id) : q = p :=
  List.inj_on_of_nodup_map hnd hq hp hid

theorem mem_replaceById {l : List Payment} {id : Nat} {newP q : Payment}
    (h : q ∈ replaceById l id newP) : q = newP ∨ q ∈ l := by
  induction l with
  | nil => simp [replaceById] at h
  | cons p rest ih =>
    by_cases hp : p.id = id
    · rw [replaceById, if_pos (by simp [hp])] at h
      rcases List.mem_cons.mp h with rfl | hm
      · exact Or.inl rfl
      · exact Or.inr (List.mem_cons_of_mem _ hm)
    · rw [replaceById, if_neg (by simp [hp])] at h
      rcases List.mem_cons.mp h with rfl | hm
      · exact Or.inr (List.mem_cons_self _ _)
      · rcases ih hm with he | hmem
        · exact Or.inl he
        · exact Or.inr (List.mem_cons_of_mem _ hmem)

theorem map_id_replaceById {l : List Payment} {id : Nat} {newP : Payment}
    (hid : newP.id = id) : (replaceById l id newP).map (·.id) = l.map (·.id) := by
  induction l with
  | nil => rfl
  | cons p rest ih =>
    by_cases hp : p.id = id
    · rw [replaceById, if_pos (by simp [hp])]
      simp [hid, hp]
    · rw [replaceById, if_neg (by simp [hp])]
      simp [ih]

theorem mem_removeById {l : List Payment} {id : Nat} {q : Payment}
    (h : q ∈ removeById l id) : q ∈ l := by
  induction l with
  | nil => simp [removeById] at h
  | cons p rest ih =>
    by_cases hp : p.id = id
    · rw [removeById, if_pos (by simp [hp])] at h
      exact List.mem_cons_of_mem _ h
    · rw [removeById, if_neg (by simp [hp])] at h
      rcases List.mem_cons.mp h with rfl | hm
      · exact List.mem_cons_self _ _
      · exact List.mem_cons_of_mem _ (ih hm)

theorem map_id_removeById (l : List Payment) (id : Nat) :
    (removeById l id).map (·.id) = (l.map (·.id)).erase id := by
  induction l with
  | nil => rfl
  | cons p rest ih =>
    by_cases hp : p.id = id
    · rw [removeById, if_pos (by simp [hp])]
      rw [List.map_cons, hp, List.erase_cons_head]
    · rw [removeById, if_neg (by simp [hp])]
      rw [List.map_cons, List.map_cons, List.erase_cons_tail (by simp [hp]), ih]

theorem find?_replaceById {l : List Payment} {id : Nat} {newP : Payment}
    (hid : newP.id = id) :
    ∀ {p : Payment}, l.find? (fun q => q.id == id) = some p →
      (replaceById l id newP).find? (fun q => q.id == id) = some newP := by
  induction l with
  | nil => intro p h; simp [List.find?] at h
  | cons q rest ih =>
    intro p h
    by_cases hq : q.id = id
    · rw [replaceById, if_pos (by simp [hq])]
      simp [List.find?_cons, hid]
    · rw [replaceById, if_neg (by simp [hq])]
      have hb : (q.id == id) = false := by simp [hq]
      rw [List.find?_cons] at h ⊢
      simp only [hb] at h ⊢
      exact @ih p h

/-! ## One-step behaviour of the store operations -/

/-- What one operation does to the list of stored ids: it is unchanged,
extended at the end with the fresh counter value, or has one id erased.
No operation ever rewrites the `id` field of a payment that stays. -/
theorem ids_applyOp (s : ServiceState) (op : Op) :
    ids (applyOp s op) = ids s
  ∨ ids (applyOp s op) = ids s ++ [s.idCounter]
  ∨ ∃ i, ids (applyOp s op) = (ids s).erase i := by
  cases op with
  | opCreate dto txnId now =>
    cases hv : validatePayment dto with
    | error e => left; simp [applyOp, create, hv]
    | ok u => cases u; right; left; simp [applyOp, create, hv, ids, createdPayment_id]
  | opUpdate id dto now =>
    cases hf : findOne s id with
    | error e => left; simp [applyOp, update, hf]
    | ok payment =>
      cases hv : (match dto.status with
                  | some newStatus => validateStatusTransition payment.status newStatus
                  | none => .ok ()) with
      | error e => left; simp [applyOp, update, hf, hv]
      | ok u =>
        cases u
        left
        have hid : (mergeUpdate payment dto now).id = id := by
          have := find?_id_eq (findOne_ok hf)
          simpa [mergeUpdate] using this
        simp [applyOp, update, hf, hv, ids, map_id_replaceById hid]
  | opRemove id =>
    cases hf : findOne s id with
    | error e => left; simp [applyOp, remove, hf]
    | ok payment =>
      by_cases hs : payment.status = .completed ∨ payment.status = .refunded
      · left; simp [applyOp, remove, hf, hs]
      · right; right
        exact ⟨id, by simp [applyOp, remove, hf, hs, ids, map_id_removeById]⟩
  | opProcess id success now =>
    cases hf : findOne s id with
    | error e => left; simp [applyOp, processPayment, hf]
    | ok payment =>
      by_cases hs : payment.status = .pending
      · left
        have hid : payment.id = id := find?_id_eq (findOne_ok hf)
        simp [applyOp, processPayment, hf, hs, ids,
          map_id_replaceById (show ({ payment with
            status := if success then .completed else .failed,
            updatedAt := now } : Payment).id = id from hid)]
      · left; simp [applyOp, processPayment, hf, hs]
  | opRefund id now =>
    cases hf : findOne s id with
    | error e => left; simp [applyOp, refundPayment, hf]
    | ok payment =>
      by_cases hs : payment.status = .completed
      · left
        have hid : payment.id = id := find?_id_eq (findOne_ok hf)
        simp [applyOp, refundPayment, hf, hs, ids,
          map_id_replaceById (show ({ payment with
            status := .refunded, updatedAt := now } : Payment).id = id from hid)]
      · left; simp [applyOp, refundPayment, hf, hs]

/-- One operation keeps the id counter or bumps it by one. -/
theorem idCounter_applyOp (s : ServiceState) (op : Op) :
    (applyOp s op).idCounter = s.idCounter ∨
    (applyOp s op).idCounter = s.idCounter + 1 := by
  cases op with
  | opCreate dto txnId now =>
    cases hv : validatePayment dto with
    | error e => left; simp [applyOp, create, hv]
    | ok u => cases u; right; simp [applyOp, create, hv]
  | opUpdate id dto now =>
    cases hf : findOne s id with
    | error e => left; simp [applyOp, update, hf]
    | ok payment =>
      cases hv : (match dto.status with
                  | some newStatus => validateStatusTransition payment.status newStatus
                  | none => .ok ()) with
      | error e => left; simp [applyOp, update, hf, hv]
      | ok u => cases u; left; simp [applyOp, update, hf, hv]
  | opRemove id =>
    cases hf : findOne s id with
    | error e => left; simp [applyOp, remove, hf]
    | ok payment =>
      by_cases hs : payment.status = .completed ∨ payment.status = .refunded
      · left; simp [applyOp, remove, hf, hs]
      · left; simp [applyOp, remove, hf, hs]
  | opProcess id success now =>
    cases hf : findOne s id with
    | error e => left; simp [applyOp, processPayment, hf]
    | ok payment =>
      by_cases hs : payment.status = .pending
      · left; simp [applyOp, processPayment, hf, hs]
      · left; simp [applyOp, processPayment, hf, hs]
  | opRefund id now =>
    cases hf : findOne s id with
    | error e => left; simp [applyOp, refundPayment, hf]
    | ok payment =>
      by_cases hs : payment.status = .completed
      · left; simp [applyOp, refundPayment, hf, hs]
      · left; simp [applyOp, refundPayment, hf, hs]

/-- Every payment stored after an operation was stored before, or is the
replacement written for the found payment (same id), or is the freshly
created payment (id = the old counter). -/
theorem mem_applyOp {s : ServiceState} {op : Op} {q : Payment}
    (hq : q ∈ (applyOp s op).payments) :
    q ∈ s.payments ∨
    (∃ p ∈ s.payments, q.id = p.id ∧ q.id ∈ ids s) ∨
    (q.id = s.idCounter ∧ (applyOp s op).idCounter = s.idCounter + 1) := by
  cases op with
  | opCreate dto txnId now =>
    cases hv : validatePayment dto with
    | error e => left; simpa [applyOp, create, hv] using hq
    | ok u =>
      cases u
      simp only [applyOp, create, hv] at hq
      rcases List.mem_append.mp hq with hm | hm
      · exact Or.inl hm
      · right; right
        constructor
        · simpa using congrArg Payment.id (List.mem_singleton.mp hm)
        · simp [applyOp, create, hv]
  | opUpdate id dto now =>
    cases hf : findOne s id with
    | error e => left; simpa [applyOp, update, hf] using hq
    | ok payment =>
      cases hv : (match dto.status with
                  | some newStatus => validateStatusTransition payment.status newStatus
                  | none => .ok ()) with
      | error e => left; simpa [applyOp, update, hf, hv] using hq
      | ok u =>
        cases u
        simp only [applyOp, update, hf, hv] at hq
        rcases mem_replaceById hq with rfl | hm
        · right; left
          refine ⟨payment, find?_id_mem (findOne_ok hf), rfl, ?_⟩
          show (mergeUpdate payment dto now).id ∈ ids s
          have hpid : (mergeUpdate payment dto now).id = payment.id := rfl
          rw [hpid, ids]
          exact List.mem_map_of_mem (·.id) (find?_id_mem (findOne_ok hf))
        · exact Or.inl hm
  | opRemove id =>
    cases hf : findOne s id with
    | error e => left; simpa [applyOp, remove, hf] using hq
    | ok payment =>
      by_cases hs : payment.status = .completed ∨ payment.status = .refunded
      · left; simpa [applyOp, remove, hf, hs] using hq
      · left
        have : q ∈ removeById s.payments id := by
          simpa [applyOp, remove, hf, hs] using hq
        exact mem_removeById this
  | opProcess id success now =>
    cases hf : findOne s id with
    | error e => left; simpa [applyOp, processPayment, hf] using hq
    | ok payment =>
      by_cases hs : payment.status = .pending
      · have hq' : q ∈ replaceById s.payments id
            ({ payment with
                status := if success then PaymentStatus.completed else PaymentStatus.failed
                updatedAt := now }) := by
          simpa [applyOp, processPayment, hf, hs] using hq
        rcases mem_replaceById hq' with rfl | hm
        · right; left
          refine ⟨payment, find?_id_mem (findOne_ok hf), rfl, ?_⟩
          show payment.id ∈ ids s
          rw [ids]
          exact List.mem_map_of_mem (·.id) (find?_id_mem (findOne_ok hf))
        · exact Or.inl hm
      · left; simpa [applyOp, processPayment, hf, hs] using hq
  | opRefund id now =>
    cases hf : findOne s id with
    | error e => left; simpa [applyOp, refundPayment, hf] using hq
    | ok payment =>
      by_cases hs : payment.status = .completed
      · have hq' : q ∈ replaceById s.payments id
            ({ payment with
                status := PaymentStatus.refunded
                updatedAt := now }) := by
          simpa [applyOp, refundPayment, hf, hs] using hq
        rcases mem_replaceById hq' with rfl | hm
        · right; left
          refine ⟨payment, find?_id_mem (findOne_ok hf), rfl, ?_⟩
          show payment.id ∈ ids s
          rw [ids]
          exact List.mem_map_of_mem (·.id) (find?_id_mem (findOne_ok hf))
        · exact Or.inl hm
      · left; simpa [applyOp, refundPayment, hf, hs] using hq

/-- Every store operation preserves the id invariant. -/
theorem inv_applyOp {s : ServiceState} (h : Inv s) (op : Op) : Inv (applyOp s op) := by
  obtain ⟨hnd, hbound⟩ := h
  have hcnt : s.idCounter ≤ (applyOp s op).idCounter := by
    rcases idCounter_applyOp s op with hc | hc <;> omega
  constructor
  · rcases ids_applyOp s op with he | he | ⟨i, he⟩
    · rw [he]; exact hnd
    · rw [he, List.nodup_append]
      refine ⟨hnd, List.nodup_singleton _, ?_⟩
      intro a ha hb
      rw [List.mem_singleton] at hb
      subst hb
      rw [ids, List.mem_map] at ha
      obtain ⟨p, hp, hpe⟩ := ha
      exact absurd hpe (Nat.ne_of_lt (hbound p hp))
    · rw [he]; exact hnd.erase i
  · intro q hq
    rcases mem_applyOp hq with hm | ⟨p, hp, hqp, _⟩ | ⟨hqc, hbump⟩
    · exact lt_of_lt_of_le (hbound q hm) hcnt
    · rw [hqp]
      exact lt_of_lt_of_le (hbound p hp) hcnt
    · rw [hqc, hbump]
      omega

/-- Every state reachable by a call sequence from the fresh service
satisfies the id invariant. -/
theorem inv_run (ops : List Op) : Inv (run ops) := by
  have hgen : ∀ (l : List Op) (s : ServiceState), Inv s → Inv (l.foldl applyOp s) := by
    intro l
    induction l with
    | nil => intro s hs; exact hs
    | cons op rest ih => intro s hs; exact ih _ (inv_applyOp hs op)
  exact hgen ops initialState (by constructor <;> simp [ids, initialState])

/-- Appending one call folds as one `applyOp` step. -/
theorem run_append_one (ops : List Op) (op : Op) :
    run (ops ++ [op]) = applyOp (run ops) op := by
  rw [run, List.foldl_append]
  rfl

/-- One-step preservation of a terminal (`failed`/`refunded`) status: no
operation moves a payment out of a terminal status. -/
theorem terminal_step {s : ServiceState} (hInv : Inv s) (op : Op) {p : Payment}
    (hp : p ∈ s.payments)
    (hterm : p.status = PaymentStatus.failed ∨ p.status = PaymentStatus.refunded) :
    ∀ q ∈ (applyOp s op).payments, q.id = p.id → q.status = p.status := by
  obtain ⟨hnd, hbound⟩ := hInv
  have hold : ∀ {r : Payment}, r ∈ s.payments → r.id = p.id → r.status = p.status := by
    intro r hr hrid
    rw [mem_id_inj hnd hp hr hrid]
  intro q hq hid
  cases op with
  | opCreate dto txnId now =>
    cases hv : validatePayment dto with
    | error e =>
      exact hold (by simpa [applyOp, create, hv] using hq) hid
    | ok u =>
      cases u
      simp only [applyOp, create, hv] at hq
      rcases List.mem_append.mp hq with hm | hm
      · exact hold hm hid
      · have : q.id = s.idCounter := by
          simpa using congrArg Payment.id (List.mem_singleton.mp hm)
        exact absurd (hid ▸ this) (Nat.ne_of_lt (hbound p hp))
  | opUpdate id dto now =>
    cases hf : findOne s id with
    | error e =>
      exact hold (by simpa [applyOp, update, hf] using hq) hid
    | ok payment =>
      have hpaymem : payment ∈ s.payments := find?_id_mem (findOne_ok hf)
      have hpayid : payment.id = id := find?_id_eq (findOne_ok hf)
      cases hv : (match dto.status with
                  | some newStatus => validateStatusTransition payment.status newStatus
                  | none => .ok ()) with
      | error e =>
        exact hold (by simpa [applyOp, update, hf, hv] using hq) hid
      | ok u =>
        cases u
        have hq' : q ∈ replaceById s.payments id (mergeUpdate payment dto now) := by
          simpa [applyOp, update, hf, hv] using hq
        rcases mem_replaceById hq' with rfl | hm
        · have hpayp : payment.status = p.status := by
            refine hold hpaymem ?_
            simpa [mergeUpdate] using hid
          cases hst : dto.status with
          | none => simpa [mergeUpdate, hst] using hpayp
          | some st =>
            rw [hst] at hv
            have hps : payment.status = PaymentStatus.failed ∨
                payment.status = PaymentStatus.refunded := by
              rw [hpayp]; exact hterm
            rcases hps with ht | ht <;> rw [ht] at hv <;>
              simp [validateStatusTransition, validTransitions] at hv
        · exact hold hm hid
  | opRemove id =>
    cases hf : findOne s id with
    | error e =>
      exact hold (by simpa [applyOp, remove, hf] using hq) hid
    | ok payment =>
      by_cases hs : payment.status = .completed ∨ payment.status = .refunded
      · exact hold (by simpa [applyOp, remove, hf, hs] using hq) hid
      · have hq' : q ∈ removeById s.payments id := by
          simpa [applyOp, remove, hf, hs] using hq
        exact hold (mem_removeById hq') hid
  | opProcess id success now =>
    cases hf : findOne s id with
    | error e =>
      exact hold (by simpa [applyOp, processPayment, hf] using hq) hid
    | ok payment =>
      have hpaymem : payment ∈ s.payments := find?_id_mem (findOne_ok hf)
      by_cases hs : payment.status = .pending
      · have hq' : q ∈ replaceById s.payments id
            ({ payment with
                status := if success then PaymentStatus.completed else PaymentStatus.failed
                updatedAt := now }) := by
          simpa [applyOp, processPayment, hf, hs] using hq
        rcases mem_replaceById hq' with rfl | hm
        · have hpayp : payment.status = p.status := hold hpaymem hid
          rcases hterm with ht | ht <;> rw [hpayp, ht] at hs <;> exact absurd hs (by simp)
        · exact hold hm hid
      · exact hold (by simpa [applyOp, processPayment, hf, hs] using hq) hid
  | opRefund id now =>
    cases hf : findOne s id with
    | error e =>
      exact hold (by simpa [applyOp, refundPayment, hf] using hq) hid
    | ok payment =>
      have hpaymem : payment ∈ s.payments := find?_id_mem (findOne_ok hf)
      by_cases hs : payment.status = .completed
      · have hq' : q ∈ replaceById s.payments id
            ({ payment with
                status := PaymentStatus.refunded
                updatedAt := now }) := by
          simpa [applyOp, refundPayment, hf, hs] using hq
        rcases mem_replaceById hq' with rfl | hm
        · have hpayp : payment.status = p.status := hold hpaymem hid
          rcases hterm with ht | ht <;> rw [hpayp, ht] at hs <;> exact absurd hs (by simp)
        · exact hold hm hid
      · exact hold (by simpa [applyOp, refundPayment, hf, hs] using hq) hid

/-- The transition table admits exactly the claim's three pairs. -/
theorem contains_validTransitions_iff (c t : PaymentStatus) :
    ((validTransitions c).contains t = true) ↔ legalPair c t := by
  cases c <;> cases t <;> decide

/-! ## The claims -/

/-- C1: for every stored payment with current status `c` and every
requested target status `target`, updating with `{status: target}`
changes the payment's status to `target` exactly when `(c, target)` is
pending→completed, pending→failed or completed→refunded; every other
pair fails with the BusinessRuleViolation (`BadRequestException`) and
leaves the store untouched, rejected before any store mutation. -/
theorem C1_update_status_transition (s : ServiceState) (p : Payment)
    (target : PaymentStatus) (now : Nat) (hInv : Inv s) (hp : p ∈ s.payments) :
    (legalPair p.status target →
      update s p.id (statusOnlyDto target) now =
        (.ok (statusUpdated p target now),
         { s with payments := replaceById s.payments p.id (statusUpdated p target now) }) ∧
      updateEntity s p.id (statusOnlyDto target) now =
        (.ok (mkPaymentResponseDto (statusUpdated p target now)),
         { s with payments := replaceById s.payments p.id (statusUpdated p target now) }) ∧
      findOne (update s p.id (statusOnlyDto target) now).2 p.id =
        .ok (statusUpdated p target now)) ∧
    (¬ legalPair p.status target →
      update s p.id (statusOnlyDto target) now =
        (.error (.badRequestError ("Invalid status transition from " ++
          statusStr p.status ++ " to " ++ statusStr target)), s) ∧
      updateEntity s p.id (statusOnlyDto target) now =
        (.error (.badRequestError ("Invalid status transition from " ++
          statusStr p.status ++ " to " ++ statusStr target)), s)) := by
  have hfind : s.payments.find? (fun q => q.id == p.id) = some p :=
    find?_of_mem_nodup hInv.1 hp
  have hfo : findOne s p.id = .ok p := by rw [findOne, hfind]
  have hmerge : mergeUpdate p (statusOnlyDto target) now = statusUpdated p target now := rfl
  constructor
  · intro hlegal
    have hvalid : validateStatusTransition p.status target = .ok () := by
      rw [validateStatusTransition,
        if_pos ((contains_validTransitions_iff p.status target).mpr hlegal)]
    have heq : update s p.id (statusOnlyDto target) now =
        (.ok (statusUpdated p target now),
         { s with payments := replaceById s.payments p.id (statusUpdated p target now) }) := by
      simp [update, hfo, statusOnlyDto, hvalid, mergeUpdate, statusUpdated]
    refine ⟨heq, ?_, ?_⟩
    · simp [updateEntity, heq]
    · have hrep :=
        @find?_replaceById s.payments p.id (statusUpdated p target now) rfl p hfind
      rw [heq]
      simp [findOne, hrep]
  · intro hnot
    have hvalid : validateStatusTransition p.status target =
        .error (.badRequestError ("Invalid status transition from " ++
          statusStr p.status ++ " to " ++ statusStr target)) := by
      rw [validateStatusTransition,
        if_neg (fun hc => hnot ((contains_validTransitions_iff p.status target).mp hc))]
    have herr : update s p.id (statusOnlyDto target) now =
        (.error (.badRequestError ("Invalid status transition from " ++
          statusStr p.status ++ " to " ++ statusStr target)), s) := by
      simp [update, hfo, statusOnlyDto, hvalid]
    exact ⟨herr, by simp [updateEntity, herr]⟩

/-- Witness for C1 at a concrete store: pending→completed succeeds and
rewrites the stored payment, pending→refunded is rejected unchanged. -/
theorem C1_update_status_transition_witness :
    (update stateEx paymentEx.id (statusOnlyDto .completed) 5 =
        (.ok (statusUpdated paymentEx .completed 5),
         { stateEx with payments := replaceById stateEx.payments paymentEx.id (statusUpdated paymentEx .completed 5) }) ∧
      updateEntity stateEx paymentEx.id (statusOnlyDto .completed) 5 =
        (.ok (mkPaymentResponseDto (statusUpdated paymentEx .completed 5)),
         { stateEx with payments := replaceById stateEx.payments paymentEx.id (statusUpdated paymentEx .completed 5) }) ∧
      findOne (update stateEx paymentEx.id (statusOnlyDto .completed) 5).2
          paymentEx.id = .ok (statusUpdated paymentEx .completed 5)) ∧
    (update stateEx paymentEx.id (statusOnlyDto .refunded) 5 =
      (.error (.badRequestError ("Invalid status transition from " ++
        statusStr paymentEx.status ++ " to " ++ statusStr .refunded)), stateEx) ∧
     updateEntity stateEx paymentEx.id (statusOnlyDto .refunded) 5 =
      (.error (.badRequestError ("Invalid status transition from " ++
        statusStr paymentEx.status ++ " to " ++ statusStr .refunded)), stateEx)) := by
  constructor
  · exact (C1_update_status_transition stateEx paymentEx .completed 5
      (by decide) (by decide)).1 (Or.inl ⟨rfl, rfl⟩)
  · exact (C1_update_status_transition stateEx paymentEx .refunded 5
      (by decide) (by decide)).2 (by decide)

/-- C2 counterexample: `createEntity` wraps its result in
`getCreatedResponseClass()` = `PaymentCreatedResponseDto`, whose declared
field set is not that of the `PaymentResponseDto` used by
`findOneEntity`/`updateEntity` — `customerEmail` (among others) exists
only in the latter.  So the create response is not "the same response
shape" the claim asserts. -/
theorem C2_created_response_shape_differs :
    createEntityResponseFields ≠ findOneEntityResponseFields ∧
    "customerEmail" ∈ findOneEntityResponseFields ∧
    "customerEmail" ∉ createEntityResponseFields := by
  refine ⟨by decide, by decide, by decide⟩

/-- C2 (amended): `createEntity(input)` delegates to `store.create(input)`
and wraps the resulting entity in the Created-response constructor
(`getCreatedResponseClass()` → `PaymentCreatedResponseDto`), a shape
distinct from the SingleResponse that `findOneEntity` and `updateEntity`
wrap their results in. -/
theorem C2_create_wraps_created_response (s : ServiceState) (dto : CreatePaymentDto)
    (txnId : String) (now : Nat) (e : Payment) (s' : ServiceState)
    (h : create s dto txnId now = (.ok e, s')) :
    createEntity s dto txnId now = (.ok (mkPaymentCreatedResponseDto e), s') ∧
    createEntityResponseFields ≠ findOneEntityResponseFields := by
  refine ⟨?_, by decide⟩
  simp [createEntity, h]

/-- Witness for C2 (amended) at the concrete create request `dtoEx`. -/
theorem C2_create_wraps_created_response_witness :
    createEntity initialState dtoEx "txn" 0 =
      (.ok (mkPaymentCreatedResponseDto paymentEx), stateEx) ∧
    createEntityResponseFields ≠ findOneEntityResponseFields :=
  C2_create_wraps_created_response initialState dtoEx "txn" 0 paymentEx stateEx rfl

/-- C3 counterexample: the class `AutoResponse(mapping)` returns is the
anonymous `class extends constructor`, whose own `name` is the empty
string; applying it to `PaymentResponseDto` yields a class whose name is
not `"PaymentResponseDto"`.  Nothing in `AutoResponse` restores the
original name (unlike `AutoEntity`, which does so explicitly). -/
theorem C3_autoResponse_name_not_preserved :
    (autoResponse paymentResponseMapping paymentResponseDtoClass).name = "" ∧
    paymentResponseDtoClass.name = "PaymentResponseDto" ∧
    (autoResponse paymentResponseMapping paymentResponseDtoClass).name ≠
      paymentResponseDtoClass.name :=
  ⟨rfl, rfl, by decide⟩

/-- C3 (amended): for every class and mapping, the `AutoResponse`-enhanced
class carries the anonymous empty name (while still receiving the
documentation metadata), whereas the `AutoEntity` synthesizer is the
applier that preserves the declared class name. -/
theorem C3_name_preservation_located (mapping : List (String × ResponseFieldConfig))
    (c : JsClass) :
    (autoResponse mapping c).name = "" ∧
    (autoResponse mapping c).protoMeta = c.protoMeta ++ mapping ∧
    (autoEntity c).name = c.name :=
  ⟨rfl, rfl, rfl⟩

/-- C4: `findAllEntities()` reports a `total` equal to the number of
entities the store's `findAll()` returns at call time, and that count
equals the length of the returned item list; the controller's overriding
`findAll` (with its optional filters) keeps the same items/total
agreement. -/
theorem C4_findAll_total_consistent (s : ServiceState) (status? : Option PaymentStatus)
    (email? : Option String) :
    (findAllEntities s).total = (findAll s).length ∧
    (findAllEntities s).items.length = (findAllEntities s).total ∧
    (controllerFindAll s status? email?).items.length =
      (controllerFindAll s status? email?).total := by
  refine ⟨rfl, ?_, ?_⟩
  · simp [findAllEntities, mkBaseListResponseDto]
  · cases status? <;> cases email? <;>
      simp [controllerFindAll, mkBaseListResponseDto]

/-- C5: reconstructing an entity or response instance from the plain
field record of a constructed instance yields the same fields: the
synthesized shallow-copy construction is idempotent under reconstruction
from its own flattened output, for the entity variant (`super()` then
copy) and the response variant (base constructor copies, wrapper copies
again) alike. -/
theorem C5_shallow_copy_idempotent (x : Obj) (k : String) :
    getField (entityConstruct (toPlainObject (entityConstruct x))) k =
      getField (entityConstruct x) k ∧
    getField (responseConstruct (toPlainObject (responseConstruct x))) k =
      getField (responseConstruct x) k := by
  constructor
  · rw [toPlainObject]
    exact getField_entityConstruct_of_nodup (entityConstruct_keys_nodup x) k
  · rw [toPlainObject]
    rw [getField_responseConstruct (responseConstruct x) k]
    exact getField_entityConstruct_of_nodup (responseConstruct_keys_nodup x) k

/-- Applying a table whose entries are all genuine factories never
throws. -/
theorem applyEntries_completes :
    ∀ (entries : List (String × MappingEntry)) (t : DtoClass),
      (∀ e ∈ entries, isFactoryEntry e.2 = true) →
      completesNormally (applyEntries entries t) = true := by
  intro entries
  induction entries with
  | nil => intro t h; rfl
  | cons e rest ih =>
    intro t h
    obtain ⟨k, entry⟩ := e
    cases entry with
    | ruleFactory attrs =>
      exact ih _ (fun e he => h e (List.mem_cons_of_mem _ he))
    | notCallable v =>
      exact absurd (h (k, .notCallable v) (List.mem_cons_self _ _))
        (by simp [isFactoryEntry])

/-- C6 counterexample: a malformed mapping table — here one whose
`amount` entry is the number `42` rather than a zero-argument function —
makes `AutoApplyDecorators` invoke a non-callable, so a `TypeError`
escapes and the resource definition does *not* complete; the decorator
only guards against a falsy (absent) table, not a malformed one. -/
theorem C6_malformed_mapping_throws :
    autoApplyDecorators
        (some [("amount", MappingEntry.notCallable (Value.vNum 42))])
        createPaymentDtoBare =
      .thrown "TypeError: decoratorFactory is not a function" ∧
    completesNormally
        (autoApplyDecorators
          (some [("amount", MappingEntry.notCallable (Value.vNum 42))])
          createPaymentDtoBare) = false :=
  ⟨rfl, rfl⟩

/-- C6 (amended): only an *absent* (falsy) mapping table degrades
gracefully — the decorator warns and returns the shape undecorated, and
a table whose entries are all genuine zero-argument factories completes
normally; a malformed entry, by contrast, raises a `TypeError` that
prevents the resource definition from completing. -/
theorem C6_absent_mapping_degrades (target : DtoClass)
    (entries : List (String × MappingEntry))
    (hwf : ∀ e ∈ entries, isFactoryEntry e.2 = true) :
    autoApplyDecorators none target =
      .ok ["No field mappings provided to @AutoApplyDecorators"] target ∧
    completesNormally (autoApplyDecorators (some entries) target) = true :=
  ⟨rfl, applyEntries_completes entries target hwf⟩

/-- Witness for C6 (amended): the real `CreatePaymentMapping` is
well-formed, so decorating the bare `CreatePaymentDto` completes. -/
theorem C6_absent_mapping_degrades_witness :
    autoApplyDecorators none createPaymentDtoBare =
      .ok ["No field mappings provided to @AutoApplyDecorators"] createPaymentDtoBare ∧
    completesNormally (autoApplyDecorators (some createPaymentMapping) createPaymentDtoBare) = true :=
  C6_absent_mapping_degrades createPaymentDtoBare createPaymentMapping (by decide)

/-- C7: a create request with a non-positive amount fails with the
BusinessRuleViolation "Payment amount must be positive" and the store is
not mutated — no entity is added and the id counter is unchanged. -/
theorem C7_nonpositive_amount_rejected (s : ServiceState) (dto : CreatePaymentDto)
    (txnId : String) (now : Nat) (h : dto.amount ≤ 0) :
    create s dto txnId now =
      (.error (.badRequestError "Payment amount must be positive"), s) ∧
    (create s dto txnId now).2.payments = s.payments ∧
    (create s dto txnId now).2.idCounter = s.idCounter := by
  have hv : validatePayment dto =
      .error (.badRequestError "Payment amount must be positive") := by
    rw [validatePayment, if_pos h]
  refine ⟨?_, ?_, ?_⟩ <;> simp [create, hv]

/-- Witness for C7 at the concrete request with amount −5. -/
theorem C7_nonpositive_amount_rejected_witness :
    create stateEx dtoNeg "t" 7 =
      (.error (.badRequestError "Payment amount must be positive"), stateEx) ∧
    (create stateEx dtoNeg "t" 7).2.payments = stateEx.payments ∧
    (create stateEx dtoNeg "t" 7).2.idCounter = stateEx.idCounter :=
  C7_nonpositive_amount_rejected stateEx dtoNeg "t" 7 (by decide)

/-- C8: in every store state reachable by a call sequence from the empty
store the stored ids are pairwise distinct, and one further call leaves
the id list unchanged, appends the fresh counter value, or erases one
id — ids are never renumbered, so a stored payment keeps its id for as
long as it stays. -/
theorem C8_ids_unique_and_stable (ops : List Op) (op : Op) :
    (ids (run ops)).Nodup ∧
    (ids (run (ops ++ [op])) = ids (run ops) ∨
     ids (run (ops ++ [op])) = ids (run ops) ++ [(run ops).idCounter] ∨
     ∃ i, ids (run (ops ++ [op])) = (ids (run ops)).erase i) := by
  refine ⟨(inv_run ops).1, ?_⟩
  rw [run_append_one]
  exact ids_applyOp (run ops) op

/-- C9: once a stored payment's status is `failed` or `refunded`, no
subsequent operation — update with any status, processPayment,
refundPayment, remove or create — ever changes it: any payment stored
under the same id afterwards still carries exactly that status. -/
theorem C9_terminal_status_is_final (ops : List Op) (op : Op) (p : Payment)
    (hp : p ∈ (run ops).payments)
    (hterm : p.status = PaymentStatus.failed ∨ p.status = PaymentStatus.refunded) :
    ∀ q ∈ (run (ops ++ [op])).payments, q.id = p.id → q.status = p.status := by
  rw [run_append_one]
  exact terminal_step (inv_run ops) op hp hterm

/-- Witness for C9: after a create and a failed processing draw, an
update that requests `completed` leaves the failed payment failed. -/
theorem C9_terminal_status_is_final_witness :
    pFailedEx ∈ (run opsFailedHistory).payments ∧
    pFailedEx ∈ (run (opsFailedHistory ++ [opRetryCompleted])).payments ∧
    pFailedEx.status = PaymentStatus.failed :=
  ⟨by decide, by decide,
   C9_terminal_status_is_final opsFailedHistory opRetryCompleted pFailedEx
     (by decide) (Or.inl rfl) pFailedEx (by decide) rfl⟩

/-- C10: the supported-currency check passes for any capitalization of
USD, EUR or GBP (it upper-cases before comparing), yet the stored
payment keeps the currency string exactly as the caller provided it,
with no case normalization. -/
theorem C10_currency_case_insensitive (s : ServiceState) (dto : CreatePaymentDto)
    (txnId : String) (now : Nat) (hamt : 0 < dto.amount)
    (hcur : toUpperStr dto.currency ∈ validCurrencies) :
    validatePayment dto = .ok () ∧
    create s dto txnId now =
      (.ok (createdPayment s dto txnId now),
       { payments := s.payments ++ [createdPayment s dto txnId now]
         idCounter := s.idCounter + 1 }) ∧
    (createdPayment s dto txnId now).currency = dto.currency ∧
    createdPayment s dto txnId now ∈ (create s dto txnId now).2.payments := by
  have hc : validCurrencies.contains (toUpperStr dto.currency) = true :=
    List.elem_eq_true_of_mem hcur
  have hv : validatePayment dto = .ok () := by
    rw [validatePayment, if_neg (by omega), if_neg (by rw [hc]; simp)]
  refine ⟨hv, by simp [create, hv], rfl, ?_⟩
  simp [create, hv]

/-- Witness for C10 at the lower-case request `dtoLower` (`"usd"`). -/
theorem C10_currency_case_insensitive_witness :
    validatePayment dtoLower = .ok () ∧
    create initialState dtoLower "t" 0 =
      (.ok (createdPayment initialState dtoLower "t" 0),
       { payments := initialState.payments ++ [createdPayment initialState dtoLower "t" 0]
         idCounter := initialState.idCounter + 1 }) ∧
    (createdPayment initialState dtoLower "t" 0).currency = dtoLower.currency ∧
    createdPayment initialState dtoLower "t" 0 ∈
      (create initialState dtoLower "t" 0).2.payments :=
  C10_currency_case_insensitive initialState dtoLower "t" 0 (by decide) (by decide)

end BaseNest
